import Mathlib

/-!
# Verification of the t3_chat turn-processing pipeline

A shallow embedding of the parts of the `Aafimalek/t3_chat` repository that
the claims of the specification are about:

* the `MemoryManager` three-tier deduplication (`_is_duplicate_fact`,
  `save_facts_batch`), embedded from the verbatim source quoted in the
  repository README;
* the client `sendChatMessage` state transition from
  `frontend/src/lib/chat-context.tsx`;
* the `ToolRouter` pattern families, embedded regex by regex from the
  `SEARCH_INDICATORS` / `NO_SEARCH_INDICATORS` lists quoted verbatim in
  the repository README, with the decision rule applying them taken from
  the specification;
* the `RAGRetriever`, `Orchestrator` and `FactExtractor` behaviour,
  modelled from the specification where the backend modules are not among
  the repository sources.

Strings are modelled as Lean `String`s, manipulated through their underlying
character lists.  Python `str.lower`/`str.strip`/`str.split()` and the
JavaScript `String.trim` are modelled for the ASCII fragment the claims
exercise.
-/

namespace T3Chat

/-! ## Character-level string primitives -/

/-- ASCII whitespace test, the character class both Python `str.split()` /
`str.strip()` and JavaScript `String.trim` treat as separators (restricted
to the ASCII fragment the repository data exercise). -/
def isSpaceChar (c : Char) : Bool := c.isWhitespace

/-- Python `str.lower()` (ASCII fragment): lower-case every character. -/
def pyLower (s : List Char) : List Char := s.map Char.toLower

/-- Python `str.strip()` / JavaScript `String.trim`: drop whitespace from
both ends. -/
def pyStrip (s : List Char) : List Char :=
  ((s.dropWhile isSpaceChar).reverse.dropWhile isSpaceChar).reverse

/-- Accumulator loop behind `splitWs`: `acc` holds the (reversed)
characters of the word currently being read. -/
def splitWsAux : List Char → List Char → List (List Char)
  | [], acc => if acc.isEmpty then [] else [acc.reverse]
  | c :: cs, acc =>
    if isSpaceChar c then
      if acc.isEmpty then splitWsAux cs [] else acc.reverse :: splitWsAux cs []
    else splitWsAux cs (c :: acc)

/-- Python `str.split()` with no argument: split on runs of whitespace,
discarding empty pieces. -/
def splitWs (s : List Char) : List (List Char) := splitWsAux s []

/-- `needle` occurs as a contiguous prefix of `haystack`
(helper for substring containment). -/
def leadsList : List Char → List Char → Bool
  | [], _ => true
  | _ :: _, [] => false
  | a :: as, b :: bs => a == b && leadsList as bs

/-- The Python `needle in haystack` operator on strings: contiguous substring
containment (the empty string is contained in everything). -/
def containsSub (needle haystack : List Char) : Bool :=
  match haystack with
  | [] => needle.isEmpty
  | _ :: t => leadsList needle haystack || containsSub needle t

/-! ## MemoryManager deduplication

Embedded from `backend/memory/manager.py` as quoted verbatim in the
repository README (`_is_duplicate_fact`). -/

/-- Normalised content of a fact string: `fact.lower().strip()`. -/
def normContent (s : String) : List Char := pyStrip (pyLower s.data)

/-- Whitespace-token set of a fact string:
`set(fact.lower().strip().split())`. -/
def factTokens (s : String) : Finset (List Char) :=
  (splitWs (normContent s)).toFinset

/-- The token-overlap ratio of the third deduplication tier:
`len(fact_tokens & existing_tokens) / min(len(fact_tokens), len(existing_tokens))`. -/
def token_overlap_similarity (a b : Finset (List Char)) : ℚ :=
  ((a ∩ b).card : ℚ) / ((min a.card b.card : ℕ) : ℚ)

/-- The float comparison of the source, `similarity >= 0.8` computed exactly over
the integers: `overlap / min(|A|,|B|) ≥ 4/5` iff `4 * min(|A|,|B|) ≤
5 * overlap` (the operand magnitudes here are far too small for the float
rounding of the Python original to disagree with the exact comparison). -/
def token_overlap_ge_threshold (a b : Finset (List Char)) : Bool :=
  decide (4 * min a.card b.card ≤ 5 * (a ∩ b).card)

/-- The integer comparison agrees with `0.8 ≤` the rational ratio whenever
the smaller token set is non-empty. -/
theorem token_overlap_ge_threshold_iff (a b : Finset (List Char))
    (h : 0 < min a.card b.card) :
    token_overlap_ge_threshold a b = true ↔
      (0.8 : ℚ) ≤ token_overlap_similarity a b := by
  have hm : (0 : ℚ) < ((min a.card b.card : ℕ) : ℚ) := by exact_mod_cast h
  rw [token_overlap_ge_threshold, token_overlap_similarity, decide_eq_true_iff]
  rw [show (0.8 : ℚ) = 4 / 5 by norm_num, div_le_div_iff₀ (by norm_num) hm,
    show (((a ∩ b).card : ℕ) : ℚ) * 5 = ((5 * (a ∩ b).card : ℕ) : ℚ) by
      push_cast; ring,
    show (4 : ℚ) * ((min a.card b.card : ℕ) : ℚ) =
        ((4 * min a.card b.card : ℕ) : ℚ) by push_cast; ring]
  exact ⟨fun hle => by exact_mod_cast hle, fun hle => by exact_mod_cast hle⟩

/-- `MemoryManager._is_duplicate_fact`, embedded from the source quoted in
the README: a candidate `fact` is a duplicate of the `existing` memory
contents when for some existing memory either (1) the lowered/stripped
strings match exactly, (2) one is a substring of the other, or (3) both
token sets have more than 2 tokens and the token-overlap ratio is at least
`0.8`. -/
def is_duplicate_fact (fact : String) (existing : List String) : Bool :=
  let fact_lower := normContent fact
  let fact_tokens := (splitWs fact_lower).toFinset
  existing.any fun mem =>
    let existing_content := normContent mem
    let existing_tokens := (splitWs existing_content).toFinset
    if existing_content = fact_lower then true
    else if containsSub fact_lower existing_content ||
        containsSub existing_content fact_lower then true
    else if 2 < fact_tokens.card ∧ 2 < existing_tokens.card then
      token_overlap_ge_threshold fact_tokens existing_tokens
    else false

/-- `MemoryManager.save_facts_batch`, following the wrapper described by the specification
around the deduplication cascade: each candidate is checked against all
memories present at that point (existing ones plus candidates already
inserted in the batch); non-duplicates are inserted.  Returns the number of
inserted records and the final memory contents. -/
def save_facts_batch (existing : List String) (facts : List String) :
    Nat × List String :=
  facts.foldl
    (fun acc f =>
      if is_duplicate_fact f acc.2 then acc else (acc.1 + 1, acc.2 ++ [f]))
    (0, existing)

/-- C1: for a candidate fact and an existing memory whose whitespace-token
sets both have more than 2 tokens, and which are neither exact
case-insensitive matches nor substrings of one another,
the cascade of `save_facts_batch` classifies the candidate as a duplicate (and
skips insertion) exactly when the token-overlap ratio
`|intersection| / min(|A|,|B|)` is at least `0.80`; the boundary is
inclusive. -/
theorem token_overlap_tier_boundary (fact mem : String)
    (hf : 2 < (factTokens fact).card) (hm : 2 < (factTokens mem).card)
    (hne : normContent mem ≠ normContent fact)
    (hs₁ : containsSub (normContent fact) (normContent mem) = false)
    (hs₂ : containsSub (normContent mem) (normContent fact) = false) :
    is_duplicate_fact fact [mem] = true ↔
      (0.8 : ℚ) ≤ token_overlap_similarity (factTokens fact) (factTokens mem) := by
  have hmin : 0 < min (factTokens fact).card (factTokens mem).card :=
    lt_min (by omega) (by omega)
  rw [← token_overlap_ge_threshold_iff _ _ hmin]
  simp only [factTokens] at hf hm ⊢
  simp only [is_duplicate_fact, List.any_cons, List.any_nil, Bool.or_false]
  rw [if_neg hne, if_neg (by simp [hs₁, hs₂]), if_pos ⟨hf, hm⟩]

/-- Witness for C1, evaluating both directions of the boundary: the spec
ratio-`0.80` pair is classified as a duplicate (inclusive boundary), while
a pair with ratio `0.75 < 0.80` is not. -/
theorem token_overlap_tier_boundary_witness :
    is_duplicate_fact "user is a software developer"
      ["user is a python developer"] = true ∧
    is_duplicate_fact "alpha beta gamma delta"
      ["alpha beta gamma zeta"] = false := by
  constructor
  · exact (token_overlap_tier_boundary "user is a software developer"
        "user is a python developer" (by decide) (by decide) (by decide)
        (by decide) (by decide)).mpr
      ((token_overlap_ge_threshold_iff _ _ (by decide)).mp (by decide))
  · have h := token_overlap_tier_boundary "alpha beta gamma delta"
      "alpha beta gamma zeta" (by decide) (by decide) (by decide)
      (by decide) (by decide)
    rw [← Bool.not_eq_true]
    intro hb
    have hq := (token_overlap_ge_threshold_iff _ _ (by decide)).mpr (h.mp hb)
    revert hq
    decide

/-- C2: with the memory "User is a software developer" already stored,
`save_facts_batch` on the single new fact "user is a Developer" inserts 0
records: the candidate is classified as a duplicate by the cascade. -/
theorem exact_dedup_inserts_zero :
    (save_facts_batch ["User is a software developer"]
      ["user is a Developer"]).1 = 0 := by decide

/-- C3: whenever, after lowercasing and trimming, either of a candidate
fact and an existing memory is a substring of the other (containment in
either direction), `_is_duplicate_fact` classifies the candidate as a
duplicate, so `save_facts_batch` skips it. -/
theorem substring_containment_dedup (fact mem : String)
    (h : containsSub (normContent fact) (normContent mem) = true ∨
         containsSub (normContent mem) (normContent fact) = true) :
    is_duplicate_fact fact [mem] = true := by
  simp only [is_duplicate_fact, List.any_cons, List.any_nil, Bool.or_false]
  rcases eq_or_ne (normContent mem) (normContent fact) with he | he
  · rw [if_pos he]
  · rw [if_neg he, if_pos (by rcases h with h | h <;> simp [h])]

/-- Witness for C3, at the example of the spec in both directions: existing
"user works at Acme" against new "user works at Acme as an engineer", and
the roles swapped. -/
theorem substring_containment_dedup_witness :
    is_duplicate_fact "user works at Acme as an engineer"
      ["user works at Acme"] = true ∧
    is_duplicate_fact "user works at Acme"
      ["user works at Acme as an engineer"] = true :=
  ⟨substring_containment_dedup _ _ (Or.inr (by decide)),
   substring_containment_dedup _ _ (Or.inl (by decide))⟩

/-! ## ToolRouter

The `SEARCH_INDICATORS` and `NO_SEARCH_INDICATORS` regex pattern families
are embedded from the verbatim source quoted in the repository README
(Search Auto-Detection Patterns).  Each regex is a word-boundary-wrapped
alternation of literal phrases, possibly joined by a `.*` gap; matching is
embedded case-insensitively (message and phrases lowered), and the
character class `202[0-9]` is expanded to its ten instances.  The decision
rule applying the two families is modelled from the specification, which
states that exclude takes precedence over include. -/

/-- A regex word character, `[a-zA-Z0-9_]` (the class that the `\b`
anchors of the embedded patterns test). -/
def isWordChar (c : Char) : Bool := c.isAlphanum || c == '_'

/-- The character just before the current scan position is compatible with
a leading `\b` for a phrase starting with a word character: there is no
previous character, or it is not a word character. -/
def prevOk : Option Char → Bool
  | none => true
  | some c => !isWordChar c

/-- The character just after a matched phrase is compatible with a
trailing `\b` for a phrase ending with a word character: the input is
exhausted, or the next character is not a word character. -/
def afterOk : List Char → Bool
  | [] => true
  | c :: _ => !isWordChar c

/-- The ASCII apostrophe (occurs inside the `when\x27s` alternative). -/
def apostropheChar : Char := Char.ofNat 39

/-- `\bphrase\b` matches at the current scan position (whose preceding
character, if any, is `prev`). -/
def bothBoundsHere (prev : Option Char) (phrase s : List Char) : Bool :=
  prevOk prev && leadsList phrase s && afterOk (s.drop phrase.length)

/-- `\bphrase\b` matches somewhere at or after the current scan
position. -/
def wordOccursAux (phrase : List Char) : Option Char → List Char → Bool
  | prev, [] => bothBoundsHere prev phrase []
  | prev, c :: rest =>
    bothBoundsHere prev phrase (c :: rest) || wordOccursAux phrase (some c) rest

/-- `re.search` of `\bphrase\b` on the whole input. -/
def wordOccurs (phrase s : List Char) : Bool := wordOccursAux phrase none s

/-- `re.search` of a word-boundary-wrapped alternation
`\b(p1|p2|...)\b`. -/
def anyWordOccurs (phrases : List (List Char)) (s : List Char) : Bool :=
  phrases.any fun p => wordOccurs p s

/-- `re.search` of `\bpa\b.*\b(pb1|pb2|...)\b`: a bounded occurrence of
`pa` followed, anywhere in the remaining input, by a bounded occurrence of
one of the `pbs` (the scan after `pa` carries its last character as the
boundary context). -/
def seqWordOccursAux (pa : List Char) (pbs : List (List Char)) :
    Option Char → List Char → Bool
  | _, [] => false
  | prev, c :: rest =>
    (bothBoundsHere prev pa (c :: rest) &&
      pbs.any fun pb =>
        wordOccursAux pb (some (pa.getLastD c)) ((c :: rest).drop pa.length)) ||
    seqWordOccursAux pa pbs (some c) rest

/-- `re.search` of `\b(pa1|...)\b.*\b(pb1|...)\b`. -/
def seqWordOccurs (pas pbs : List (List Char)) (s : List Char) : Bool :=
  pas.any fun pa => seqWordOccursAux pa pbs none s

/-- `re.search` of `\bpa\b.*(pb1|pb2|...)`: a bounded occurrence of `pa`
followed by a plain (unbounded) occurrence of one of the `pbs`. -/
def seqSubOccursAux (pa : List Char) (pbs : List (List Char)) :
    Option Char → List Char → Bool
  | _, [] => false
  | prev, c :: rest =>
    (bothBoundsHere prev pa (c :: rest) &&
      pbs.any fun pb => containsSub pb ((c :: rest).drop pa.length)) ||
    seqSubOccursAux pa pbs (some c) rest

/-- `re.search` of `\b(pa1|...)\b.*(pb1|...)`. -/
def seqSubOccurs (pas pbs : List (List Char)) (s : List Char) : Bool :=
  pas.any fun pa => seqSubOccursAux pa pbs none s

/-- An occurrence of `phrase` (no leading boundary: it starts with a
non-word character) whose end satisfies a trailing `\b`. -/
def tailBoundOccurs (phrase : List Char) : List Char → Bool
  | [] => phrase.isEmpty
  | c :: rest =>
    (leadsList phrase (c :: rest) && afterOk ((c :: rest).drop phrase.length)) ||
    tailBoundOccurs phrase rest

/-- `re.search` of `\bpa.*pb\b` (the `how does .* work` alternative): a
left-bounded occurrence of `pa` followed anywhere by an occurrence of `pb`
with a trailing boundary. -/
def gapPhraseOccursAux (pa pb : List Char) : Option Char → List Char → Bool
  | _, [] => false
  | prev, c :: rest =>
    (prevOk prev && leadsList pa (c :: rest) &&
      tailBoundOccurs pb ((c :: rest).drop pa.length)) ||
    gapPhraseOccursAux pa pb (some c) rest

/-- `SEARCH_INDICATORS`, embedded pattern by pattern from the source
quoted in the README: time-sensitive terms, event/schedule vocabulary,
named leagues, weather/stock co-occurrence patterns, news terms, and
explicit search verbs. -/
def searchIndicatorsMatch (msg : List Char) : Bool :=
  anyWordOccurs
    ["today".data, "yesterday".data, "this week".data, "current".data,
     "latest".data, "recent".data, "now".data,
     "2020".data, "2021".data, "2022".data, "2023".data, "2024".data,
     "2025".data, "2026".data, "2027".data, "2028".data, "2029".data] msg ||
  anyWordOccurs
    ["when is".data, "when".data ++ [apostropheChar] ++ "s".data,
     "when will".data, "what date".data, "exact date".data] msg ||
  anyWordOccurs
    ["next".data, "upcoming".data, "scheduled".data, "event".data,
     "fight".data, "match".data, "game".data] msg ||
  anyWordOccurs
    ["ufc".data, "nfl".data, "nba".data, "mlb".data,
     "premier league".data] msg ||
  seqWordOccurs
    ["weather".data, "forecast".data, "temperature".data]
    ["in".data, "at".data, "for".data] msg ||
  seqWordOccurs
    ["stock".data, "share".data, "market".data, "trading".data]
    ["price".data, "value".data] msg ||
  anyWordOccurs ["news".data, "headlines".data, "latest".data] msg ||
  anyWordOccurs
    ["search".data, "look up".data, "find".data, "google".data,
     "check".data] msg

/-- `NO_SEARCH_INDICATORS`, embedded pattern by pattern from the source
quoted in the README: explain/teach verbs (including the
`how does .* work` gap pattern), write/create/code verbs,
translate/summarize/rewrite verbs, and references to an own
document/pdf/file/upload. -/
def noSearchIndicatorsMatch (msg : List Char) : Bool :=
  (anyWordOccurs
     ["explain".data, "teach me".data, "what is the concept".data] msg ||
   gapPhraseOccursAux "how does ".data " work".data none msg) ||
  anyWordOccurs
    ["write".data, "create".data, "generate".data, "make".data,
     "code".data, "implement".data] msg ||
  anyWordOccurs ["translate".data, "summarize".data, "rewrite".data] msg ||
  seqSubOccurs
    ["my".data, "our".data, "we".data, "i".data]
    ["document".data, "pdf".data, "file".data, "upload".data] msg

/-- Some `SEARCH_INDICATORS` pattern matches the (lowered) message. -/
def matchesSearchIndicators (message : String) : Bool :=
  searchIndicatorsMatch (pyLower message.data)

/-- Some `NO_SEARCH_INDICATORS` pattern matches the (lowered) message. -/
def matchesNoSearchIndicators (message : String) : Bool :=
  noSearchIndicatorsMatch (pyLower message.data)

/-- The per-turn tool mode of the turn request. -/
inductive ToolMode where
  | auto
  | search
  | off
  deriving DecidableEq

/-- The ToolRouter search decision over the embedded pattern families.
Mode `search` forces search on and mode `none` (here `off`) forces it off,
per the specification; under `auto` search is enabled only if at least one
`SEARCH_INDICATORS` pattern matches and no `NO_SEARCH_INDICATORS` pattern
matches (the exclude-wins precedence stated by the specification). -/
def routeSearch (mode : ToolMode) (message : String) : Bool :=
  match mode with
  | .search => true
  | .off => false
  | .auto =>
    matchesSearchIndicators message && !matchesNoSearchIndicators message

/-- C4: under tool mode `auto`, search is enabled iff at least one INCLUDE
(`SEARCH_INDICATORS`) pattern matches the message and no EXCLUDE
(`NO_SEARCH_INDICATORS`) pattern matches it; in particular, when a message
matches both an INCLUDE and an EXCLUDE pattern, search is not enabled —
exclude takes precedence. -/
theorem auto_mode_search_decision (message : String) :
    (routeSearch .auto message = true ↔
      matchesSearchIndicators message = true ∧
        matchesNoSearchIndicators message = false) ∧
    (matchesSearchIndicators message = true →
      matchesNoSearchIndicators message = true →
      routeSearch .auto message = false) := by
  constructor
  · simp [routeSearch]
  · intro hinc hexc
    simp [routeSearch, hinc, hexc]

/-- Witness for C4 at the examples of the spec: "What is the weather in
Paris today" matches the time-sensitive INCLUDE pattern and no EXCLUDE
pattern, so search triggers; "Explain how binary search works" matches the
INCLUDE verb "search" and the EXCLUDE verb "explain", and the exclude
wins, so search does not trigger. -/
theorem auto_mode_search_decision_witness :
    routeSearch .auto "What is the weather in Paris today" = true ∧
    routeSearch .auto "Explain how binary search works" = false := by
  constructor
  · exact (auto_mode_search_decision "What is the weather in Paris today").1.mpr
      ⟨by decide, by decide⟩
  · exact (auto_mode_search_decision "Explain how binary search works").2
      (by decide) (by decide)

/-! ## Frontend chat client

Embedded from `frontend/src/lib/chat-context.tsx` (`sendChatMessage`): the
optimistic append of the user message and the empty assistant placeholder,
the streaming loop that rewrites the last message with the accumulated
response, the request built for `streamMessage`, and the `catch` handler
that sets the error string and drops the last two messages. -/

/-- A chat message as kept in the `messages` state (the `timestamp` field,
produced from the wall clock, is not modelled). -/
structure ChatMessage where
  role : String
  content : String
  deriving DecidableEq

/-- The slice of the `ChatProvider` state that `sendChatMessage` reads. -/
structure ClientState where
  messages : List ChatMessage
  error : Option String
  searchEnabled : Bool
  documentCount : Nat
  userId : String
  conversationId : Option String
  selectedModel : String
  deriving DecidableEq

/-- The body of the `/api/chat/stream` request. -/
structure StreamRequest where
  message : String
  user_id : String
  conversation_id : Option String
  model_name : String
  tool_mode : String
  use_rag : Bool
  deriving DecidableEq

/-- The request `sendChatMessage` passes to `streamMessage`:
`tool_mode` is `search` when the search toggle is on and `auto` otherwise,
and `use_rag` is `documentCount > 0`. -/
def buildStreamRequest (st : ClientState) (content : String) : StreamRequest :=
  { message := content
    user_id := st.userId
    conversation_id := st.conversationId
    model_name := st.selectedModel
    tool_mode := if st.searchEnabled then "search" else "auto"
    use_rag := decide (0 < st.documentCount) }

/-- One value yielded by the `streamMessage` generator: either a content
chunk or the metadata object of the `done` event. -/
inductive StreamChunk where
  | content (s : String)
  | meta (conversation_id : String)

/-- The `setMessages` updater used on each content chunk: replace the
content of the last message, leaving everything else unchanged (no-op on an
empty list). -/
def setLastContent : List ChatMessage → String → List ChatMessage
  | [], _ => []
  | [m], c => [{ m with content := c }]
  | m :: n :: rest, c => m :: setLastContent (n :: rest) c

/-- The `for await` loop of `sendChatMessage`: fold the yielded chunks over
the message list and the accumulated `fullResponse`.  Metadata chunks only
update the conversation id and tool metadata, not the message list. -/
def processChunks :
    List ChatMessage → String → List StreamChunk → List ChatMessage × String
  | msgs, full, [] => (msgs, full)
  | msgs, full, .content s :: rest =>
    processChunks (setLastContent msgs (full ++ s)) (full ++ s) rest
  | msgs, full, .meta _ :: rest => processChunks msgs full rest

/-- How one call of the streaming request resolves: the stream completes
after yielding `chunks`, or it throws after yielding `processed`. -/
inductive StreamRun where
  | ok (chunks : List StreamChunk)
  | failed (processed : List StreamChunk) (errMsg : String)

/-- The observable outcome of one `sendChatMessage` call: the final
`messages` and `error` state, and the request issued (`none` when the call
returned without issuing one). -/
structure SendOutcome where
  messages : List ChatMessage
  error : Option String
  request : Option StreamRequest
  deriving DecidableEq

/-- `sendChatMessage` from `chat-context.tsx`: return immediately on blank
content; otherwise append the user message and an empty assistant
placeholder, stream (rewriting the placeholder with the accumulated
response), and on a thrown error set the error string and drop the last two
messages. -/
def sendChatMessage (st : ClientState) (content : String) (run : StreamRun) :
    SendOutcome :=
  if (pyStrip content.data).isEmpty then
    { messages := st.messages, error := st.error, request := none }
  else
    let afterAppend := st.messages ++
      [{ role := "user", content := content },
       { role := "assistant", content := "" }]
    let req := buildStreamRequest st content
    match run with
    | .ok chunks =>
      { messages := (processChunks afterAppend "" chunks).1
        error := none
        request := some req }
    | .failed processed errMsg =>
      let atThrow := (processChunks afterAppend "" processed).1
      { messages := atThrow.take (atThrow.length - 2)
        error := some errMsg
        request := some req }

theorem setLastContent_append (l : List ChatMessage) (x : ChatMessage)
    (c : String) :
    setLastContent (l ++ [x]) c = l ++ [{ x with content := c }] := by
  induction l with
  | nil => rfl
  | cons a l ih =>
    cases l with
    | nil => rfl
    | cons b l₂ =>
      simp only [List.cons_append] at ih ⊢
      rw [setLastContent, ih]

/-- During the streaming loop the message list always stays of the shape
`previous messages ++ [user message, assistant message]`: chunk processing
only rewrites the final (assistant) entry. -/
theorem processChunks_shape (chunks : List StreamChunk) (l : List ChatMessage)
    (u a : ChatMessage) (full : String) :
    ∃ last, (processChunks (l ++ [u, a]) full chunks).1 = l ++ [u, last] := by
  induction chunks generalizing a full with
  | nil => exact ⟨a, rfl⟩
  | cons c rest ih =>
    cases c with
    | meta cid => exact ih a full
    | content s =>
      have hset : setLastContent (l ++ [u, a]) (full ++ s) =
          l ++ [u, { a with content := full ++ s }] := by
        have h := setLastContent_append (l ++ [u]) a (full ++ s)
        simpa using h
      have hstep : processChunks (l ++ [u, a]) full (.content s :: rest) =
          processChunks (l ++ [u, { a with content := full ++ s }])
            (full ++ s) rest := by
        rw [processChunks, hset]
      rw [hstep]
      exact ih { a with content := full ++ s } (full ++ s)

/-- C10: for a `sendChatMessage` call with non-blank content whose
streaming request throws after the optimistic appends, the error handler
drops exactly the last two messages, restoring the `messages` list to its
pre-call value, and sets the error string; for blank (empty or
all-whitespace) content the call returns immediately: no message is
appended, no request is issued, and the state is unchanged. -/
theorem send_error_restores_messages (st : ClientState) :
    (∀ content processed errMsg, pyStrip content.data ≠ [] →
      (sendChatMessage st content (.failed processed errMsg)).messages =
        st.messages ∧
      (sendChatMessage st content (.failed processed errMsg)).error =
        some errMsg) ∧
    (∀ content run, pyStrip content.data = [] →
      sendChatMessage st content run =
        { messages := st.messages, error := st.error, request := none }) := by
  constructor
  · intro content processed errMsg hne
    have hcond : ¬((pyStrip content.data).isEmpty = true) := by
      simpa [List.isEmpty_iff] using hne
    obtain ⟨last, hshape⟩ := processChunks_shape processed st.messages
      { role := "user", content := content }
      { role := "assistant", content := "" } ""
    constructor
    · show (sendChatMessage st content (.failed processed errMsg)).messages = _
      rw [sendChatMessage, if_neg hcond]
      simp only [hshape]
      rw [show (st.messages ++
          [{ role := "user", content := content }, last]).length - 2 =
          st.messages.length by simp]
      simp
    · rw [sendChatMessage, if_neg hcond]
  · intro content run he
    rw [sendChatMessage, if_pos (by simp [List.isEmpty_iff, he])]

/-- Witness for C10: with two prior messages in state, a call with content
"hello there" whose stream throws after one chunk restores the prior
messages and records the error; a call with all-whitespace content leaves
the state untouched and issues no request. -/
theorem send_error_restores_messages_witness :
    ((sendChatMessage
        { messages := [{ role := "user", content := "hi" },
                       { role := "assistant", content := "hey" }],
          error := none, searchEnabled := false, documentCount := 0,
          userId := "u1", conversationId := some "c1",
          selectedModel := "llama-3.3-70b-versatile" }
        "hello there"
        (.failed [.content "par"] "network error")).messages =
      [{ role := "user", content := "hi" },
       { role := "assistant", content := "hey" }] ∧
     (sendChatMessage
        { messages := [{ role := "user", content := "hi" },
                       { role := "assistant", content := "hey" }],
          error := none, searchEnabled := false, documentCount := 0,
          userId := "u1", conversationId := some "c1",
          selectedModel := "llama-3.3-70b-versatile" }
        "hello there"
        (.failed [.content "par"] "network error")).error =
      some "network error") ∧
    (sendChatMessage
        { messages := [{ role := "user", content := "hi" },
                       { role := "assistant", content := "hey" }],
          error := none, searchEnabled := false, documentCount := 0,
          userId := "u1", conversationId := some "c1",
          selectedModel := "llama-3.3-70b-versatile" }
        "   " (.ok [])) =
      { messages := [{ role := "user", content := "hi" },
                     { role := "assistant", content := "hey" }],
        error := none, request := none } := by
  constructor
  · exact (send_error_restores_messages _).1 "hello there" [.content "par"]
      "network error" (by decide)
  · exact (send_error_restores_messages _).2 "   " (.ok []) (by decide)

/-- C5: in the turn request the client builds, `use_rag` is true iff the
tracked document count of the conversation is positive, independently of
the search toggle (hence of whether `tool_mode` is `search` or `auto`). -/
theorem use_rag_iff_documents (st : ClientState) (content : String) :
    ((buildStreamRequest st content).use_rag = true ↔ 0 < st.documentCount) ∧
    (∀ b, (buildStreamRequest { st with searchEnabled := b } content).use_rag =
      (buildStreamRequest st content).use_rag) ∧
    ((buildStreamRequest st content).tool_mode = "search" ∨
      (buildStreamRequest st content).tool_mode = "auto") := by
  refine ⟨by simp [buildStreamRequest], fun b => rfl, ?_⟩
  by_cases h : st.searchEnabled <;> simp [buildStreamRequest, h]

/-! ## RAGRetriever

The backend retriever module is not among the repository sources; the
ranking/thresholding pipeline is modelled from the specification (§4.6).
Similarity scores are taken as given rationals: the cosine computation
against the external embedding provider is outside the model. -/

/-- A stored chunk paired with the cosine-similarity score the retriever
computed for the current query. -/
structure ScoredChunk where
  text : String
  docName : String
  score : ℚ
  deriving DecidableEq

/-- Descending-similarity order on scored chunks. -/
def simDesc (a b : ScoredChunk) : Prop := b.score ≤ a.score

instance : DecidableRel simDesc := fun a b =>
  inferInstanceAs (Decidable (b.score ≤ a.score))

instance : IsTotal ScoredChunk simDesc := ⟨fun a b => le_total b.score a.score⟩

instance : IsTrans ScoredChunk simDesc :=
  ⟨fun _ _ _ hab hbc => le_trans hbc hab⟩

/-- Modelled from the spec: the retained chunk list — sort by similarity
descending, keep those whose score exceeds the minimum relevance threshold,
and take the top `k`. -/
def retrieveChunks (scored : List ScoredChunk) (k : Nat) (minScore : ℚ) :
    List ScoredChunk :=
  (((scored.insertionSort simDesc).filter fun c =>
    decide (minScore < c.score)).take k)

/-- The retrieval outcome: retained chunks and the `rag_used` flag. -/
structure RetrievalOutcome where
  chunks : List ScoredChunk
  rag_used : Bool
  deriving DecidableEq

/-- Modelled from the spec: `RAGRetriever` returns the retained chunks in
similarity order; when nothing passes the threshold the context is empty
and `rag_used` is false. -/
def retrieve (scored : List ScoredChunk) (k : Nat) (minScore : ℚ) :
    RetrievalOutcome :=
  let kept := retrieveChunks scored k minScore
  { chunks := kept, rag_used := !kept.isEmpty }

/-- C6: for every retrieval, at most `k` (default 5) chunks are retained,
each scoring strictly above the relevance threshold (default `0.3`), in
descending similarity order; and when no chunk scores above the threshold
the result is an empty context with `rag_used = false`. -/
theorem retriever_topk (scored : List ScoredChunk) (k : Nat) (minScore : ℚ) :
    ((retrieve scored k minScore).chunks.length ≤ k) ∧
    (∀ c ∈ (retrieve scored k minScore).chunks, minScore < c.score) ∧
    ((retrieve scored k minScore).chunks.Sorted simDesc) ∧
    ((∀ c ∈ scored, c.score ≤ minScore) →
      (retrieve scored k minScore).chunks = [] ∧
      (retrieve scored k minScore).rag_used = false) := by
  refine ⟨List.length_take_le _ _, ?_, ?_, ?_⟩
  · intro c hc
    have hf := List.mem_of_mem_take hc
    exact of_decide_eq_true (List.mem_filter.mp hf).2
  · exact List.Pairwise.sublist (List.take_sublist _ _)
      (List.Pairwise.filter _ (List.sorted_insertionSort simDesc scored))
  · intro hall
    have hfil : ((scored.insertionSort simDesc).filter fun c =>
        decide (minScore < c.score)) = [] := by
      rw [List.filter_eq_nil_iff]
      intro c hc
      have hmem : c ∈ scored := (List.mem_insertionSort simDesc).mp hc
      simpa using not_lt_of_le (hall c hmem)
    constructor
    · show ((scored.insertionSort simDesc).filter _).take k = []
      rw [hfil, List.take_nil]
    · show (!(((scored.insertionSort simDesc).filter _).take k).isEmpty) = false
      rw [hfil, List.take_nil]
      rfl

/-- Witness for C6: with two chunks scoring `1/4` and `1/5`, both below the
`3/10` threshold, retrieval returns no chunks and reports `rag_used =
false`. -/
theorem retriever_topk_witness :
    (retrieve [⟨"alpha", "doc", 1/4⟩, ⟨"beta", "doc", 1/5⟩] 5 (3/10)).chunks
      = [] ∧
    (retrieve [⟨"alpha", "doc", 1/4⟩, ⟨"beta", "doc", 1/5⟩] 5
      (3/10)).rag_used = false :=
  (retriever_topk [⟨"alpha", "doc", 1/4⟩, ⟨"beta", "doc", 1/5⟩] 5
    (3/10)).2.2.2 (by
      intro c hc
      simp only [List.mem_cons, List.not_mem_nil, or_false] at hc
      rcases hc with h | h <;> (rw [h]; norm_num))

/-! ## Orchestrator

The backend graph module is not among the repository sources (the README
quotes an earlier three-node revision without the tool-context stage); the
four-stage turn state machine and its failure policy are modelled from the
specification (§4.1, §7). -/

/-- Modelled from the spec: the per-turn orchestrator states. -/
inductive OrchStage where
  | load_memory
  | load_tool_context
  | generate
  | extract
  | turn_done
  deriving DecidableEq

/-- Modelled from the spec: the strictly sequential, branch-free successor
of each state: `LOAD_MEMORY → LOAD_TOOL_CONTEXT → GENERATE → EXTRACT →
done`. -/
def nextStage : OrchStage → OrchStage
  | .load_memory => .load_tool_context
  | .load_tool_context => .generate
  | .generate => .extract
  | .extract => .turn_done
  | .turn_done => .turn_done

/-- The list of stages visited starting from `s`, following `nextStage`
and stopping at `turn_done`, with fuel `n`. -/
def stagesFrom : Nat → OrchStage → List OrchStage
  | 0, _ => []
  | _ + 1, .turn_done => []
  | n + 1, s => s :: stagesFrom n (nextStage s)

/-- C7: every turn passes through `LOAD_MEMORY`, `LOAD_TOOL_CONTEXT`,
`GENERATE`, `EXTRACT` in exactly that order, each stage exactly once, with
no branching and no re-entry: with any sufficient fuel the visited-stage
trace from the start state is exactly that four-element sequence, it has no
duplicates (so generation follows both loading stages and extraction
follows generation), and the successor function is deterministic. -/
theorem orchestrator_linear_order (n : Nat) (h : 4 ≤ n) :
    stagesFrom n .load_memory =
      [.load_memory, .load_tool_context, .generate, .extract] ∧
    (stagesFrom n .load_memory).Nodup := by
  obtain ⟨m, rfl⟩ := Nat.exists_eq_add_of_le h
  have hdone : stagesFrom m .turn_done = [] := by cases m <;> rfl
  have hrun : stagesFrom (4 + m) .load_memory =
      [.load_memory, .load_tool_context, .generate, .extract] := by
    rw [Nat.add_comm]
    show OrchStage.load_memory :: OrchStage.load_tool_context ::
      OrchStage.generate :: OrchStage.extract :: stagesFrom m .turn_done = _
    rw [hdone]
  exact ⟨hrun, by rw [hrun]; decide⟩

/-- Witness for C7 at fuel 4. -/
theorem orchestrator_linear_order_witness :
    stagesFrom 4 .load_memory =
      [.load_memory, .load_tool_context, .generate, .extract] ∧
    (stagesFrom 4 .load_memory).Nodup :=
  orchestrator_linear_order 4 (by decide)

/-- The result of one orchestration stage: a value or an error. -/
inductive StageResult (α : Type) where
  | ok (val : α)
  | err (msg : String)
  deriving DecidableEq

/-- Modelled from the spec: a failed context-loading stage degrades to the
empty context string. -/
def degrade : StageResult String → String
  | .ok s => s
  | .err _ => ""

/-- The outcome of a turn: a delivered response together with the facts
the extraction stage saved, or an explicit error surfaced to the caller. -/
inductive TurnOutcome where
  | success (response : String) (savedFacts : List String)
  | failure (msg : String)
  deriving DecidableEq

/-- What the caller observes of a turn outcome: the response text on
success, the explicit error on failure. -/
def userVisible : TurnOutcome → Except String String
  | .success r _ => .ok r
  | .failure m => .error m

/-- Modelled from the spec: the turn pipeline with its failure policy —
context-loading failures degrade to empty contexts and the turn proceeds;
a generation failure is fatal and surfaced; an extraction failure is
swallowed, saving no facts but leaving the delivered response unchanged. -/
def runTurn (mem tool : StageResult String)
    (genF : String → String → StageResult String)
    (extractF : String → StageResult (List String)) : TurnOutcome :=
  let memoryContext := degrade mem
  let toolContext := degrade tool
  match genF memoryContext toolContext with
  | .err m => .failure m
  | .ok resp =>
    match extractF resp with
    | .ok facts => .success resp facts
    | .err _ => .success resp []

/-- C8: a failure in `LOAD_MEMORY` or `LOAD_TOOL_CONTEXT` yields an empty
context for that stage and the turn proceeds identically to a turn whose
stage loaded an empty context; a failure in `GENERATE` makes the outcome an
explicit error (never a silent partial success); and a failure in `EXTRACT`
is swallowed, leaving the user-visible result unchanged. -/
theorem turn_failure_policy (mem tool : StageResult String)
    (genF : String → String → StageResult String)
    (extractF : String → StageResult (List String)) (m : String) :
    (degrade (.err m) = "") ∧
    (runTurn (.err m) tool genF extractF =
      runTurn (.ok "") tool genF extractF) ∧
    (runTurn mem (.err m) genF extractF =
      runTurn mem (.ok "") genF extractF) ∧
    (genF (degrade mem) (degrade tool) = .err m →
      runTurn mem tool genF extractF = .failure m) ∧
    (∀ resp, genF (degrade mem) (degrade tool) = .ok resp →
      ∀ extractF₂, userVisible (runTurn mem tool genF extractF) =
        userVisible (runTurn mem tool genF extractF₂)) := by
  refine ⟨rfl, rfl, rfl, ?_, ?_⟩
  · intro hgen
    simp only [runTurn, hgen]
  · intro resp hgen extractF₂
    simp only [runTurn, hgen]
    cases extractF resp <;> cases extractF₂ resp <;> rfl

/-- Witness for C8: a generation failure produces the explicit error
outcome, and a turn whose extraction fails is user-visibly identical to
one whose extraction succeeds. -/
theorem turn_failure_policy_witness :
    (runTurn (.err "store down") (.ok "tool ctx")
      (fun _ _ => .err "model timeout") (fun _ => .ok ["f"]) =
      .failure "model timeout") ∧
    (userVisible (runTurn (.ok "mem ctx") (.ok "tool ctx")
        (fun _ _ => .ok "the answer") (fun _ => .ok ["fact"])) =
      userVisible (runTurn (.ok "mem ctx") (.ok "tool ctx")
        (fun _ _ => .ok "the answer") (fun _ => .err "bad json"))) := by
  constructor
  · exact (turn_failure_policy (.err "store down") (.ok "tool ctx")
      (fun _ _ => .err "model timeout") (fun _ => .ok ["f"])
      "model timeout").2.2.2.1 rfl
  · exact (turn_failure_policy (.ok "mem ctx") (.ok "tool ctx")
      (fun _ _ => .ok "the answer") (fun _ => .ok ["fact"])
      "unused").2.2.2.2 "the answer" rfl (fun _ => .err "bad json")

/-! ## FactExtractor

The backend extractor module is not among the repository sources (the
README flowchart records the same length gate); the gate and the defensive
parse are modelled from the specification (§4.8). -/

/-- Modelled from the spec: the FactExtractor length gate — run only when
the user message exceeds 10 characters and the combined user-plus-assistant
exchange exceeds 50 characters. -/
def should_extract (userMsg assistantMsg : String) : Bool :=
  decide (10 < userMsg.length) &&
    decide (50 < userMsg.length + assistantMsg.length)

/-- Modelled from the spec: defensive parsing of the extraction-model
output — a non-JSON or malformed reply (`none`) becomes the empty fact
list, never an error. -/
def parse_extraction_output (parsed : Option (List String)) : List String :=
  parsed.getD []

/-- Modelled from the spec: `extract_memories` — invoke the extraction
model only when the gate passes; the first component records whether the
extractor ran, the second the parsed facts. -/
def extract_memories (userMsg assistantMsg : String)
    (modelOutput : Option (List String)) : Bool × List String :=
  if should_extract userMsg assistantMsg then
    (true, parse_extraction_output modelOutput)
  else (false, [])

/-- C9: the FactExtractor runs exactly when the user message is longer than
10 characters and the combined exchange is longer than 50 characters; and a
malformed (unparseable) extraction-model output always yields the empty
fact list without an error. -/
theorem fact_extractor_gate (u a : String) (o : Option (List String)) :
    ((extract_memories u a o).1 = true ↔
      10 < u.length ∧ 50 < u.length + a.length) ∧
    ((extract_memories u a none).2 = []) := by
  have hiff : should_extract u a = true ↔
      (10 < u.length ∧ 50 < u.length + a.length) := by
    simp [should_extract]
  constructor
  · rw [← hiff]
    by_cases h : should_extract u a = true <;> simp [extract_memories, h]
  · by_cases h : should_extract u a = true <;>
      simp [extract_memories, h, parse_extraction_output]

end T3Chat
